import Mathlib

/-!
Verification of the voice-controlled text editor (`src/app.py`).

The file shallowly embeds the pieces of `app.py` that the specification
talks about:

* Python string primitives (`str.lower`, `str.strip`, substring test via
  `in`, `str.replace`) over `List Char`, so that every definition is
  executable by the kernel;
* `process_command`, the voice-command transform;
* the sentiment tone thresholding of `analyze_sentiment` (polarity modelled
  as a rational, the TextBlob call being an external collaborator);
* `translate_text` with the translation collaborator as an oracle that can
  fail;
* the Streamlit session state (`text`, `history`, `current_index`) together
  with `save_to_history` and the button/widget handlers (dictation, clear,
  undo, redo, load-from-file, manual text-area edit) as a step function on
  an explicit state type.
-/

namespace VoiceEditor

/-! ## Python string primitives -/

/-- Python's whitespace set for `str.strip`. -/
def pyIsSpace (c : Char) : Bool :=
  c = ' ' || c = '\t' || c = '\n' || c = '\r' || c = '\x0b' || c = '\x0c'

/-- ASCII lower-casing of one character, as Python `str.lower` does on the
ASCII inputs occurring here. -/
def lowerChar (c : Char) : Char :=
  if 65 ≤ c.toNat ∧ c.toNat ≤ 90 then Char.ofNat (c.toNat + 32) else c

/-- Python `str.lower`. -/
def pyLower (s : String) : String := ⟨s.data.map lowerChar⟩

/-- Python `str.strip`: drop leading and trailing whitespace. -/
def pyStrip (s : String) : String :=
  ⟨((s.data.dropWhile pyIsSpace).reverse.dropWhile pyIsSpace).reverse⟩

/-- Does `pat` occur as a contiguous sublist of the second argument?
(Python's `pat in s`.) -/
def hasSubstrAux (pat : List Char) : List Char → Bool
  | [] => pat.isEmpty
  | c :: rest => pat.isPrefixOf (c :: rest) || hasSubstrAux pat rest

/-- Python's substring test `pat in s`. -/
def containsSub (s pat : String) : Bool := hasSubstrAux pat.data s.data

/-- Replace all non-overlapping occurrences of `pat` (left to right) by
`repl`; `fuel` bounds the recursion and is instantiated with the length of
the scanned list, which suffices because every step consumes at least one
character. -/
def replaceAllAux (pat repl : List Char) : Nat → List Char → List Char
  | 0, l => l
  | _ + 1, [] => []
  | fuel + 1, c :: rest =>
    if pat.isPrefixOf (c :: rest) then
      repl ++ replaceAllAux pat repl fuel (List.drop (pat.length - 1) rest)
    else
      c :: replaceAllAux pat repl fuel rest

/-- Python `s.replace(pat, repl)` (all occurrences, left to right). -/
def pyReplace (s pat repl : String) : String :=
  ⟨replaceAllAux pat.data repl.data s.data.length s.data⟩

/-! ## The voice-command transform (`process_command`, app.py lines 39-54) -/

/-- `process_command` from `app.py`: lower-case and strip the recognized
utterance, then dispatch on the first keyword found, in the fixed order
add, delete, html, php, bold, italic. -/
def process_command (command0 : String) : String :=
  let command := pyStrip (pyLower command0)
  if containsSub command "add" then
    pyStrip (pyReplace command "add" "")
  else if containsSub command "delete" then
    ""
  else if containsSub command "html" then
    "<p>" ++ pyStrip (pyReplace command "html" "") ++ "</p>"
  else if containsSub command "php" then
    "<?php echo \x27" ++ pyStrip (pyReplace command "php" "") ++ "\x27; ?>"
  else if containsSub command "bold" then
    "**" ++ pyStrip (pyReplace command "bold" "") ++ "**"
  else if containsSub command "italic" then
    "*" ++ pyStrip (pyReplace command "italic" "") ++ "*"
  else
    command

example : process_command "add bold hello" = "bold hello" := by decide

example : process_command "delete" = "" := by decide

example : process_command "make it italic" = "*make it*" := by decide

/-! ## Sentiment tone thresholding (`analyze_sentiment`, app.py lines 64-76)

The polarity comes from the TextBlob collaborator; the repository's own
logic is the thresholding below, embedded over the rationals. -/

/-- The tone label computed by `analyze_sentiment` from the polarity. -/
def toneLabel (polarity : ℚ) : String :=
  if polarity > 0.1 then "Positive 😊"
  else if polarity < -0.1 then "Negative 😠"
  else "Neutral 😐"

/-! ## Translation (`translate_text`, app.py lines 79-85)

The googletrans call is an external collaborator, modelled as an oracle
that either returns the translated text or fails with an exception
message. -/

/-- `translate_text` from `app.py`: return the collaborator's translation,
or the original text when the collaborator raises. -/
def translate_text (oracle : String → String → Except String String)
    (text dest_lang_code : String) : String :=
  match oracle text dest_lang_code with
  | Except.ok translated => translated
  | Except.error _ => text

/-! ## The editor session state (app.py lines 104-182)

`text`, `history` and `current_index` are the Streamlit session-state
fields; `current_index` is an `Int` because the code uses `-1` for the
empty history. -/

/-- The Streamlit session state of the editor. -/
structure EditorState where
  text : String
  history : List String
  current_index : Int
deriving Repr, DecidableEq

/-- The initial session state (app.py lines 104-109). -/
def initState : EditorState := ⟨"", [], -1⟩

/-- Python list slice `l[:k]`, including the negative-bound case. -/
def pySliceTo (l : List String) (k : Int) : List String :=
  if k < 0 then l.take ((l.length : Int) + k).toNat else l.take k.toNat

/-- Python list indexing `l[i]`, including the negative-index case; indices
that Python would reject with `IndexError` default to `""` (every theorem
below only reads in-range indices). -/
def pyGet (l : List String) (i : Int) : String :=
  if i < 0 then l.getD ((l.length : Int) + i).toNat "" else l.getD i.toNat ""

/-- `save_to_history` (app.py lines 111-114): truncate the history to
`history[:current_index + 1]`, append the current text, and advance the
index. -/
def save_to_history (s : EditorState) : EditorState :=
  { s with
    history := pySliceTo s.history (s.current_index + 1) ++ [s.text]
    current_index := s.current_index + 1 }

/-- The Start Dictation handler (app.py lines 120-126), given the text
`result` returned by the speech-recognition collaborator (empty on
failure): when `result` is non-empty, append `process_command result` to
the buffer and commit a snapshot. -/
def startDictation (result : String) (s : EditorState) : EditorState :=
  if result ≠ "" then
    save_to_history { s with text := s.text ++ process_command result }
  else s

/-- The Clear Text handler (app.py lines 128-131). -/
def clearText (_s : EditorState) : EditorState := ⟨"", [], -1⟩

/-- The Undo handler (app.py lines 137-140). -/
def undo (s : EditorState) : EditorState :=
  if s.current_index > 0 then
    { s with
      current_index := s.current_index - 1
      text := pyGet s.history (s.current_index - 1) }
  else s

/-- The Redo handler (app.py lines 142-145). -/
def redo (s : EditorState) : EditorState :=
  if s.current_index < (s.history.length : Int) - 1 then
    { s with
      current_index := s.current_index + 1
      text := pyGet s.history (s.current_index + 1) }
  else s

/-- The Load from File handler (app.py lines 152-157), given the file's
`contents`: it overwrites the buffer and does not commit a snapshot. -/
def loadFromFile (contents : String) (s : EditorState) : EditorState :=
  { s with text := contents }

/-- The text-area change handler (app.py lines 180-182): when the widget
text differs from the session text, adopt it and commit a snapshot. -/
def editTextArea (text_area : String) (s : EditorState) : EditorState :=
  if s.text ≠ text_area then
    save_to_history { s with text := text_area }
  else s

/-- One user-visible operation on the session state. -/
inductive Op where
  | dictate (result : String)
  | edit (text_area : String)
  | clear
  | undo
  | redo
  | load (contents : String)
deriving Repr, DecidableEq

/-- Apply one operation to the session state. -/
def applyOp : Op → EditorState → EditorState
  | Op.dictate r, s => startDictation r s
  | Op.edit t, s => editTextArea t s
  | Op.clear, s => clearText s
  | Op.undo, s => undo s
  | Op.redo, s => redo s
  | Op.load c, s => loadFromFile c s

/-- Run a sequence of operations from a state. -/
def run : List Op → EditorState → EditorState
  | [], s => s
  | op :: ops, s => run ops (applyOp op s)

/-- The history bounds invariant from the spec's data model:
`current_index = -1` on empty history, `0 ≤ current_index < length` on
non-empty history. -/
def boundsInv (s : EditorState) : Prop :=
  (s.history = [] → s.current_index = -1) ∧
  (s.history ≠ [] → 0 ≤ s.current_index ∧ s.current_index < (s.history.length : Int))

instance (s : EditorState) : Decidable (boundsInv s) := by
  unfold boundsInv; infer_instance

/-- The text buffer agrees with the snapshot under the history pointer. -/
def textSync (s : EditorState) : Prop :=
  s.text = pyGet s.history s.current_index

instance (s : EditorState) : Decidable (textSync s) := by
  unfold textSync; infer_instance

/-- Operations that commit a snapshot through `save_to_history`: a
dictation whose recognized text is non-empty, and a text-area edit whose
text differs from the buffer. -/
def commitsSnapshot : Op → EditorState → Prop
  | Op.dictate r, _ => r ≠ ""
  | Op.edit t, s => s.text ≠ t
  | _, _ => False

example : run [Op.edit "a", Op.edit "b"] initState = ⟨"b", ["a", "b"], 1⟩ := by decide

example : run [Op.edit "a", Op.edit "b", Op.undo] initState = ⟨"a", ["a", "b"], 0⟩ := by decide

/-! ## History invariant machinery -/

theorem boundsInv_index_range (s : EditorState) (hb : boundsInv s) :
    -1 ≤ s.current_index ∧ s.current_index < (s.history.length : Int) := by
  obtain ⟨h1, h2⟩ := hb
  by_cases hh : s.history = []
  · rw [h1 hh, hh]
    simp
  · obtain ⟨ha, hc⟩ := h2 hh
    omega

theorem pySliceTo_eq_take (l : List String) (k : Int) (hk : 0 ≤ k) :
    pySliceTo l k = l.take k.toNat := by
  unfold pySliceTo
  rw [if_neg (by omega)]

theorem getD_take (l : List String) :
    ∀ (k n : Nat) (d : String), n < k → (l.take k).getD n d = l.getD n d := by
  induction l with
  | nil => simp
  | cons a tl ih =>
    intro k n d h
    cases k with
    | zero => omega
    | succ k =>
      cases n with
      | zero => simp
      | succ n => simpa using ih k n d (by omega)

theorem save_to_history_eq (s : EditorState) (h : -1 ≤ s.current_index) :
    save_to_history s =
      ⟨s.text, s.history.take (s.current_index + 1).toNat ++ [s.text],
        s.current_index + 1⟩ := by
  unfold save_to_history
  rw [pySliceTo_eq_take _ _ (by omega)]

theorem length_take_history (s : EditorState)
    (h2 : s.current_index < (s.history.length : Int)) :
    (s.history.take (s.current_index + 1).toNat).length = (s.current_index + 1).toNat := by
  rw [List.length_take]
  omega

theorem boundsInv_save (s : EditorState) (hb : boundsInv s) :
    boundsInv (save_to_history s) ∧ textSync (save_to_history s) := by
  obtain ⟨h1, h2⟩ := boundsInv_index_range s hb
  rw [save_to_history_eq s h1]
  have hlen := length_take_history s h2
  constructor
  · constructor
    · intro hcontra
      simp at hcontra
    · intro _
      constructor
      · simp only []
        omega
      · simp only [List.length_append, hlen, List.length_cons, List.length_nil]
        omega
  · show s.text = pyGet _ (s.current_index + 1)
    unfold pyGet
    rw [if_neg (by omega)]
    rw [List.getD_append_right _ _ _ _ (le_of_eq hlen), hlen]
    simp

theorem boundsInv_with_text (s : EditorState) (t : String) :
    boundsInv { s with text := t } ↔ boundsInv s :=
  Iff.rfl

theorem boundsInv_applyOp (op : Op) (s : EditorState) (hb : boundsInv s) :
    boundsInv (applyOp op s) := by
  obtain ⟨hr1, hr2⟩ := boundsInv_index_range s hb
  cases op with
  | dictate r =>
    show boundsInv (startDictation r s)
    unfold startDictation
    split
    · exact (boundsInv_save _ ((boundsInv_with_text s _).mpr hb)).1
    · exact hb
  | edit t =>
    show boundsInv (editTextArea t s)
    unfold editTextArea
    split
    · exact (boundsInv_save _ ((boundsInv_with_text s _).mpr hb)).1
    · exact hb
  | clear =>
    show boundsInv ⟨"", [], -1⟩
    decide
  | undo =>
    show boundsInv (undo s)
    unfold undo
    split
    · rename_i hgt
      have hne : s.history ≠ [] := by
        intro hh
        rw [hb.1 hh] at hgt
        omega
      constructor
      · intro hh
        dsimp only at hh
        exact absurd hh hne
      · intro _
        dsimp only
        omega
    · exact hb
  | redo =>
    show boundsInv (redo s)
    unfold redo
    split
    · rename_i hlt
      have hne : s.history ≠ [] := by
        intro hh
        rw [hb.1 hh] at hlt
        rw [hh] at hlt
        simp at hlt
      constructor
      · intro hh
        dsimp only at hh
        exact absurd hh hne
      · intro _
        dsimp only
        omega
    · exact hb
  | load c =>
    exact hb

theorem boundsInv_run (ops : List Op) :
    ∀ s : EditorState, boundsInv s → boundsInv (run ops s) := by
  induction ops with
  | nil => exact fun s hb => hb
  | cons op ops ih =>
    intro s hb
    exact ih (applyOp op s) (boundsInv_applyOp op s hb)

/-- The text-area edit contract as the spec words it (`applyEdit`):
if the new text differs, truncate the history to `[0, historyIndex]`,
append the new text, advance the index and adopt the text; otherwise do
nothing. -/
def applyEditSpec (s : EditorState) (newText : String) : EditorState :=
  if newText ≠ s.text then
    ⟨newText, s.history.take (s.current_index + 1).toNat ++ [newText],
      s.current_index + 1⟩
  else s

theorem textSync_of_commit (op : Op) (s : EditorState) (hb : boundsInv s)
    (hc : commitsSnapshot op s) : textSync (applyOp op s) := by
  cases op with
  | dictate r =>
    show textSync (startDictation r s)
    unfold startDictation
    rw [if_pos (show r ≠ "" from hc)]
    exact (boundsInv_save _ ((boundsInv_with_text s _).mpr hb)).2
  | edit t =>
    show textSync (editTextArea t s)
    unfold editTextArea
    rw [if_pos (show s.text ≠ t from hc)]
    exact (boundsInv_save _ ((boundsInv_with_text s _).mpr hb)).2
  | clear => exact (show False from hc).elim
  | undo => exact (show False from hc).elim
  | redo => exact (show False from hc).elim
  | load c => exact (show False from hc).elim

/-! ## The claims -/

/-- C1: every state reachable from the initial session state by dictation,
text-area edits, clear, undo, redo and load-from-file satisfies the history
bounds invariant (`current_index = -1` on empty history, in range on
non-empty history), and after any operation that commits a snapshot the
buffer text equals `history[current_index]`. -/
theorem history_invariant_holds :
    (∀ ops : List Op, boundsInv (run ops initState)) ∧
    (∀ (op : Op) (s : EditorState), boundsInv s → commitsSnapshot op s →
      textSync (applyOp op s)) :=
  ⟨fun ops => boundsInv_run ops initState (by decide),
   fun op s hb hc => textSync_of_commit op s hb hc⟩

theorem history_invariant_holds_witness :
    boundsInv (run [Op.dictate "delete this", Op.edit "a", Op.undo,
      Op.load "zzz", Op.redo] initState) ∧
    textSync (applyOp (Op.edit "b") initState) :=
  ⟨history_invariant_holds.1 _,
   history_invariant_holds.2 (Op.edit "b") initState (by decide)
     (show ("" : String) ≠ "b" by decide)⟩

/-- C2: the text-area change handler of `app.py` implements exactly the
spec's `applyEdit` contract: a changed text truncates the history to
`[0, historyIndex]`, appends the new text, advances the index and sets the
buffer; an unchanged text is a no-op.  In particular a commit after undos
discards every snapshot beyond `historyIndex`. -/
theorem apply_edit_matches_spec (s : EditorState) (t : String)
    (h : -1 ≤ s.current_index) :
    editTextArea t s = applyEditSpec s t := by
  unfold editTextArea applyEditSpec
  by_cases hc : s.text = t
  · rw [if_neg (not_not_intro hc), if_neg (not_not_intro hc.symm)]
  · rw [if_pos hc, if_pos (Ne.symm hc)]
    rw [save_to_history_eq _
      (show -1 ≤ ({ s with text := t } : EditorState).current_index from h)]

theorem apply_edit_matches_spec_witness :
    -1 ≤ initState.current_index ∧
    editTextArea "a" initState = applyEditSpec initState "a" :=
  ⟨by decide, apply_edit_matches_spec initState "a" (by decide)⟩

/-- C3 is refuted on the code: after Load-from-File (which overwrites the
buffer without committing a snapshot) the state has undo enabled, redo
enabled after the undo, and yet undo followed by redo does not restore the
prior buffer text. -/
theorem undo_redo_not_roundtrip_after_load :
    (run [Op.edit "a", Op.edit "b", Op.load "x"] initState).current_index > 0 ∧
    (undo (run [Op.edit "a", Op.edit "b", Op.load "x"] initState)).current_index <
      ((undo (run [Op.edit "a", Op.edit "b", Op.load "x"] initState)).history.length : Int) - 1 ∧
    (redo (undo (run [Op.edit "a", Op.edit "b", Op.load "x"] initState))).text ≠
      (run [Op.edit "a", Op.edit "b", Op.load "x"] initState).text := by
  decide

/-- C3 (amended): on every session state that satisfies the history bounds
invariant and whose buffer agrees with `history[current_index]`, if undo is
enabled, and redo is enabled in the state the undo produces, then undo
followed by redo restores the exact prior state (text and index). -/
theorem undo_redo_roundtrip_of_sync (s : EditorState) (_hb : boundsInv s)
    (hs : textSync s) (h1 : 0 < s.current_index)
    (h2 : (undo s).current_index < ((undo s).history.length : Int) - 1) :
    redo (undo s) = s := by
  unfold textSync at hs
  have hu : undo s =
      ⟨pyGet s.history (s.current_index - 1), s.history, s.current_index - 1⟩ := by
    unfold undo
    rw [if_pos h1]
  rw [hu] at h2
  dsimp only at h2
  rw [hu]
  have hrr : redo (⟨pyGet s.history (s.current_index - 1), s.history,
      s.current_index - 1⟩ : EditorState) =
      ⟨pyGet s.history (s.current_index - 1 + 1), s.history,
        s.current_index - 1 + 1⟩ := by
    unfold redo
    rw [if_pos (show (s.current_index - 1 : Int) < (s.history.length : Int) - 1 from h2)]
  rw [hrr]
  have hi : s.current_index - 1 + 1 = s.current_index := by omega
  rw [hi, ← hs]

theorem undo_redo_roundtrip_of_sync_witness :
    redo (undo ⟨"b", ["a", "b"], 1⟩) = ⟨"b", ["a", "b"], 1⟩ :=
  undo_redo_roundtrip_of_sync ⟨"b", ["a", "b"], 1⟩ (by decide) (by decide)
    (by decide) (by decide)

/-- C7: the Clear Text handler resets the state to empty text, empty
history and index `-1`, and on the cleared state both Undo and Redo are
no-ops. -/
theorem clear_resets_and_disables_undo_redo (s : EditorState) :
    clearText s = ⟨"", [], -1⟩ ∧
    undo (clearText s) = clearText s ∧
    redo (clearText s) = clearText s :=
  ⟨rfl, rfl, rfl⟩

/-- The six keyword branches of `process_command`, in their source order,
each paired with the branch's result on the normalized command `c`. -/
def priorityBranches (c : String) : List (String × String) :=
  [("add", pyStrip (pyReplace c "add" "")),
   ("delete", ""),
   ("html", "<p>" ++ pyStrip (pyReplace c "html" "") ++ "</p>"),
   ("php", "<?php echo \x27" ++ pyStrip (pyReplace c "php" "") ++ "\x27; ?>"),
   ("bold", "**" ++ pyStrip (pyReplace c "bold" "") ++ "**"),
   ("italic", "*" ++ pyStrip (pyReplace c "italic" "") ++ "*")]

/-- The spec's first-match-wins reading of the transform: scan the branches
in the fixed priority order and apply the first one whose keyword occurs in
the normalized command; with no match, return the normalized command. -/
def firstMatchingBranch (u : String) : String :=
  let c := pyStrip (pyLower u)
  match (priorityBranches c).find? (fun b => containsSub c b.1) with
  | some b => b.2
  | none => c

/-- C4: `process_command` applies exactly the first matching branch in the
fixed priority order add, delete, html, php, bold, italic, and in
particular `"add bold hello"` takes the add branch and yields
`"bold hello"`, not a bold-wrapped result. -/
theorem command_priority_first_match :
    (∀ u : String, process_command u = firstMatchingBranch u) ∧
    process_command "add bold hello" = "bold hello" ∧
    process_command "add bold hello" ≠ "**hello**" := by
  refine ⟨?_, by decide, by decide⟩
  intro u
  simp only [process_command, firstMatchingBranch, priorityBranches]
  generalize pyStrip (pyLower u) = c
  by_cases h1 : containsSub c "add" = true
  · rw [if_pos h1, List.find?_cons_of_pos _ (by simpa using h1)]
  · rw [if_neg h1, List.find?_cons_of_neg _ (by simpa using h1)]
    by_cases h2 : containsSub c "delete" = true
    · rw [if_pos h2, List.find?_cons_of_pos _ (by simpa using h2)]
    · rw [if_neg h2, List.find?_cons_of_neg _ (by simpa using h2)]
      by_cases h3 : containsSub c "html" = true
      · rw [if_pos h3, List.find?_cons_of_pos _ (by simpa using h3)]
      · rw [if_neg h3, List.find?_cons_of_neg _ (by simpa using h3)]
        by_cases h4 : containsSub c "php" = true
        · rw [if_pos h4, List.find?_cons_of_pos _ (by simpa using h4)]
        · rw [if_neg h4, List.find?_cons_of_neg _ (by simpa using h4)]
          by_cases h5 : containsSub c "bold" = true
          · rw [if_pos h5, List.find?_cons_of_pos _ (by simpa using h5)]
          · rw [if_neg h5, List.find?_cons_of_neg _ (by simpa using h5)]
            by_cases h6 : containsSub c "italic" = true
            · rw [if_pos h6, List.find?_cons_of_pos _ (by simpa using h6)]
            · rw [if_neg h6, List.find?_cons_of_neg _ (by simpa using h6)]
              rfl

/-- Does the normalized command contain any of the six keywords? -/
def hasCommandKeyword (c : String) : Bool :=
  containsSub c "add" || containsSub c "delete" || containsSub c "html" ||
  containsSub c "php" || containsSub c "bold" || containsSub c "italic"

/-- C5 is refuted on the code: the utterance `"Hello"` contains no keyword
(case-insensitively), yet `process_command` does not return it unchanged —
it returns the lower-cased form `"hello"`. -/
theorem keywordless_not_returned_unchanged :
    hasCommandKeyword (pyStrip (pyLower "Hello")) = false ∧
    process_command "Hello" ≠ "Hello" ∧
    process_command "Hello" = "hello" := by
  decide

/-- C5 (amended): an utterance containing none of the six keywords
(case-insensitively) is returned lower-cased and stripped of surrounding
whitespace, but otherwise unchanged. -/
theorem keywordless_returns_normalized (u : String)
    (h : hasCommandKeyword (pyStrip (pyLower u)) = false) :
    process_command u = pyStrip (pyLower u) := by
  simp only [hasCommandKeyword, Bool.or_eq_false_iff] at h
  obtain ⟨⟨⟨⟨⟨h1, h2⟩, h3⟩, h4⟩, h5⟩, h6⟩ := h
  simp only [process_command]
  rw [if_neg (by simp [h1]), if_neg (by simp [h2]), if_neg (by simp [h3]),
    if_neg (by simp [h4]), if_neg (by simp [h5]), if_neg (by simp [h6])]

theorem keywordless_returns_normalized_witness :
    hasCommandKeyword (pyStrip (pyLower "  Hi There ")) = false ∧
    process_command "  Hi There " = pyStrip (pyLower "  Hi There ") :=
  ⟨by decide, keywordless_returns_normalized "  Hi There " (by decide)⟩

/-- Split a character list into words at single spaces (Python
`u.split(" ")`), accumulating the current word reversed. -/
def splitWordsAux : List Char → List Char → List (List Char)
  | acc, [] => [acc.reverse]
  | acc, c :: rest =>
    if c = ' ' then acc.reverse :: splitWordsAux [] rest
    else splitWordsAux (c :: acc) rest

/-- What C6's wording computes: remove the whitespace-delimited word
`"add"` (case-insensitively) from the utterance and trim the remainder. -/
def stripAddWordSpec (u : String) : String :=
  pyStrip ⟨List.intercalate [' ']
    ((splitWordsAux [] u.data).filter
      (fun w => w.map lowerChar != ['a', 'd', 'd']))⟩

/-- C6 is refuted on the code: `"ADD Saddle"` contains `"add"`
case-insensitively, but `process_command` does not strip the word `"add"`
and return the trimmed remainder (`"Saddle"`): it removes every occurrence
of the substring `"add"` from the lower-cased command, yielding `"sle"`. -/
theorem add_branch_not_word_strip :
    containsSub (pyStrip (pyLower "ADD Saddle")) "add" = true ∧
    process_command "ADD Saddle" = "sle" ∧
    stripAddWordSpec "ADD Saddle" = "Saddle" ∧
    process_command "ADD Saddle" ≠ stripAddWordSpec "ADD Saddle" := by
  decide

/-- C6 (amended): for every utterance whose lower-cased stripped form
contains the substring `"add"`, `process_command` removes every occurrence
of the substring `"add"` from that lower-cased stripped form and returns
the result trimmed of surrounding whitespace. -/
theorem add_branch_removes_all_occurrences (u : String)
    (h : containsSub (pyStrip (pyLower u)) "add" = true) :
    process_command u = pyStrip (pyReplace (pyStrip (pyLower u)) "add" "") := by
  simp only [process_command]
  rw [if_pos h]

theorem add_branch_removes_all_occurrences_witness :
    containsSub (pyStrip (pyLower "add hello")) "add" = true ∧
    process_command "add hello" =
      pyStrip (pyReplace (pyStrip (pyLower "add hello")) "add" "") :=
  ⟨by decide, add_branch_removes_all_occurrences "add hello" (by decide)⟩

/-- C8: `analyze_sentiment` thresholds the polarity at `±0.1` into the
three tone labels, so polarity `0.05` is Neutral, `0.5` is Positive and
`-0.3` is Negative. -/
theorem tone_thresholds (p : ℚ) :
    (p > 0.1 → toneLabel p = "Positive 😊") ∧
    (p < -0.1 → toneLabel p = "Negative 😠") ∧
    (-0.1 ≤ p → p ≤ 0.1 → toneLabel p = "Neutral 😐") ∧
    toneLabel 0.05 = "Neutral 😐" ∧
    toneLabel 0.5 = "Positive 😊" ∧
    toneLabel (-0.3) = "Negative 😠" := by
  refine ⟨?_, ?_, ?_, ?_, ?_, ?_⟩
  · intro h
    unfold toneLabel
    rw [if_pos h]
  · intro h
    unfold toneLabel
    rw [if_neg (by linarith), if_pos h]
  · intro h1 h2
    unfold toneLabel
    rw [if_neg (by linarith), if_neg (by linarith)]
  · unfold toneLabel
    rw [if_neg (by norm_num), if_neg (by norm_num)]
  · unfold toneLabel
    rw [if_pos (by norm_num)]
  · unfold toneLabel
    rw [if_neg (by norm_num), if_pos (by norm_num)]

theorem tone_thresholds_witness :
    toneLabel 0.5 = "Positive 😊" ∧
    toneLabel (-0.3) = "Negative 😠" ∧
    toneLabel 0.05 = "Neutral 😐" :=
  ⟨(tone_thresholds 0.5).1 (by norm_num),
   (tone_thresholds (-0.3)).2.1 (by norm_num),
   (tone_thresholds 0.05).2.2.1 (by norm_num) (by norm_num)⟩

/-- C9: when the translation collaborator fails with any exception,
`translate_text` returns the original input text unchanged; no error
propagates. -/
theorem translate_fail_soft (oracle : String → String → Except String String)
    (text dest_lang_code e : String)
    (h : oracle text dest_lang_code = Except.error e) :
    translate_text oracle text dest_lang_code = text := by
  unfold translate_text
  rw [h]

theorem translate_fail_soft_witness :
    translate_text (fun _ _ => Except.error "service unavailable")
      "hola mundo" "en" = "hola mundo" :=
  translate_fail_soft _ "hola mundo" "en" "service unavailable" rfl

theorem string_append_empty (s : String) : s ++ "" = s := by
  cases s with
  | mk data =>
    show String.mk (data ++ []) = String.mk data
    rw [List.append_nil]

/-- C10: when dictation recognizes a non-empty utterance whose transform
result is empty (e.g. one containing "delete"), the buffer text is left
unchanged, yet a snapshot is still committed: the history is truncated to
`[0, current_index]` and re-appends the unchanged text, the index advances
by one, and the two topmost snapshots are consecutive duplicates of the
previous one. -/
theorem dictation_empty_transform_duplicates_snapshot
    (s : EditorState) (r : String) (hr : r ≠ "") (hp : process_command r = "")
    (hb : boundsInv s) (hs : textSync s) (hne : s.history ≠ []) :
    (startDictation r s).text = s.text ∧
    (startDictation r s).current_index = s.current_index + 1 ∧
    (startDictation r s).history
      = s.history.take (s.current_index + 1).toNat ++ [s.text] ∧
    pyGet (startDictation r s).history (startDictation r s).current_index
      = s.text ∧
    pyGet (startDictation r s).history ((startDictation r s).current_index - 1)
      = s.text := by
  obtain ⟨hi0, hilen⟩ := hb.2 hne
  have hsd : startDictation r s =
      ⟨s.text, s.history.take (s.current_index + 1).toNat ++ [s.text],
        s.current_index + 1⟩ := by
    unfold startDictation
    rw [if_pos hr, hp, string_append_empty,
      save_to_history_eq _ (show -1 ≤ s.current_index by omega)]
  rw [hsd]
  dsimp only
  have hlen : (s.history.take (s.current_index + 1).toNat).length
      = (s.current_index + 1).toNat := by
    rw [List.length_take]
    omega
  refine ⟨rfl, rfl, rfl, ?_, ?_⟩
  · unfold pyGet
    rw [if_neg (by omega), List.getD_append_right _ _ _ _ (le_of_eq hlen), hlen]
    simp
  · have hii : s.current_index + 1 - 1 = s.current_index := by omega
    unfold pyGet
    rw [if_neg (by omega), hii,
      List.getD_append _ _ _ _ (by rw [hlen]; omega),
      getD_take _ _ _ _ (by omega)]
    unfold textSync pyGet at hs
    rw [if_neg (by omega)] at hs
    exact hs.symm

theorem dictation_empty_transform_duplicates_snapshot_witness :
    process_command "delete this" = "" ∧
    (startDictation "delete this" ⟨"hi", ["hi"], 0⟩).text = "hi" ∧
    (startDictation "delete this" ⟨"hi", ["hi"], 0⟩).history = ["hi", "hi"] ∧
    (startDictation "delete this" ⟨"hi", ["hi"], 0⟩).current_index = 1 := by
  have h := dictation_empty_transform_duplicates_snapshot ⟨"hi", ["hi"], 0⟩
    "delete this" (by decide) (by decide) (by decide) (by decide) (by decide)
  exact ⟨by decide, h.1, by decide, h.2.1⟩

end VoiceEditor
